import Mathlib

/-!
Verification of the audio capture / WAV encoding / artifact transfer core of
the midio front-end script (`src/static/script.js` and the revised copy
`src/unnamed/part_000`).

The numeric pipeline of the script is embedded shallowly:

* A captured sample is an IEEE-754 value.  Every arithmetic step the encoder
  performs on a finite sample is exact in float64 (the clamp only selects
  among inputs, and a clamped float32 value in [-1, 1] has at most 24
  mantissa bits, so multiplying by 32767 or 32768 needs at most 39 bits,
  well within the 53 bits of the float64 mantissa).  Finite samples are therefore modelled as
  rationals, and the special values NaN, +Infinity, -Infinity are modelled
  explicitly by dedicated constructors.
* Byte buffers (`ArrayBuffer` / `DataView`) are lists of naturals below 256;
  `setUint32` / `setUint16` / `setInt16` little-endian writes become
  byte-list encoders, with the ECMAScript wrap-around (`ToUint32`,
  `ToInt16`) kept explicit.
-/

namespace Midio

/-- A JavaScript number as seen by the recording pipeline: NaN, the two
infinities, or a finite value (modelled exactly as a rational). -/
inductive FVal where
  | nan : FVal
  | pinf : FVal
  | ninf : FVal
  | fin (q : ℚ) : FVal
deriving DecidableEq

/-- `Math.min(a, b)`: NaN propagates, otherwise the smaller value. -/
def jsMin : FVal → FVal → FVal
  | .nan, _ => .nan
  | _, .nan => .nan
  | .ninf, _ => .ninf
  | _, .ninf => .ninf
  | .pinf, b => b
  | a, .pinf => a
  | .fin a, .fin b => .fin (min a b)

/-- `Math.max(a, b)`: NaN propagates, otherwise the larger value. -/
def jsMax : FVal → FVal → FVal
  | .nan, _ => .nan
  | _, .nan => .nan
  | .pinf, _ => .pinf
  | _, .pinf => .pinf
  | .ninf, b => b
  | a, .ninf => a
  | .fin a, .fin b => .fin (max a b)

/-- The clamp in `createWavBlob`: `Math.max(-1, Math.min(1, x))`. -/
def clampSample (v : FVal) : FVal :=
  jsMax (.fin (-1)) (jsMin (.fin 1) v)

/-- The JavaScript comparison `x < 0` (false on NaN). -/
def ltZero : FVal → Bool
  | .nan => false
  | .ninf => true
  | .pinf => false
  | .fin a => a < 0

/-- Multiplication of a sample by a positive integer constant (the factors
`0x8000` and `0x7FFF` used by the encoder).  Exact on the values reaching it
(clamped float32 samples), with the IEEE rules for the special values. -/
def mulConst (v : FVal) (c : ℚ) : FVal :=
  match v with
  | .nan => .nan
  | .pinf => .pinf
  | .ninf => .ninf
  | .fin a => .fin (a * c)

/-- Truncation toward zero of a rational, the `truncate` step of the
ECMAScript `ToInt16` conversion. -/
def truncQ (q : ℚ) : ℤ :=
  if 0 ≤ q then ⌊q⌋ else ⌈q⌉

/-- Twos-complement wrap-around of an integer into the signed 16-bit range,
the final step of `ToInt16`. -/
def wrap16 (n : ℤ) : ℤ :=
  if n % 65536 < 32768 then n % 65536 else n % 65536 - 65536

/-- ECMAScript `ToInt16`, applied by `DataView.setInt16` to its argument:
NaN and the infinities become 0; a finite value is truncated toward zero and
wrapped into the signed 16-bit range. -/
def toInt16 : FVal → ℤ
  | .nan => 0
  | .pinf => 0
  | .ninf => 0
  | .fin q => wrap16 (truncQ q)

/-- The per-sample quantization performed by `createWavBlob`:
`const s = Math.max(-1, Math.min(1, buf[i]));`
`view.setInt16(offset, s < 0 ? s * 0x8000 : s * 0x7fff, true)`. -/
def quantize (v : FVal) : ℤ :=
  let s := clampSample v
  toInt16 (if ltZero s then mulConst s 32768 else mulConst s 32767)

/-- `writeString(view, off, s)`: the ASCII bytes `s.charCodeAt(i)` written by
`setUint8` (which reduces its argument modulo 256). -/
def writeString (s : String) : List ℕ :=
  s.data.map (fun c => c.toNat % 256)

/-- The 4 bytes written by `view.setUint32(off, n, true)` (little-endian;
taking each byte modulo 256 realises the ECMAScript `ToUint32` wrap). -/
def setUint32 (n : ℕ) : List ℕ :=
  [n % 256, n / 256 % 256, n / 65536 % 256, n / 16777216 % 256]

/-- The 2 bytes written by `view.setUint16(off, n, true)` (little-endian). -/
def setUint16 (n : ℕ) : List ℕ :=
  [n % 256, n / 256 % 256]

/-- The 2 bytes written by `view.setInt16(off, n, true)` for an integer `n`
already in the signed 16-bit range: the little-endian bytes of its 16-bit
twos-complement bit pattern. -/
def setInt16 (n : ℤ) : List ℕ :=
  [(n % 65536).toNat % 256, (n % 65536).toNat / 256 % 256]

/-- The data chunk: each input sample quantized and written as a
little-endian 16-bit value, in order. -/
def sampleData (buf : List FVal) : List ℕ :=
  (buf.map (fun v => setInt16 (quantize v))).flatten

/-- `createWavBlob(buf, sr)`: the full byte buffer, header writes in source
order (offsets 0,4,8,12,16,20,22,24,28,32,34,36,40) followed by the sample
data at offset 44.  Identical in both copies of the script:
`dataLength = buf.length * 2`, `blockAlign = 2`, mono 16-bit. -/
def createWavBlob (buf : List FVal) (sr : ℕ) : List ℕ :=
  writeString "RIFF" ++
  setUint32 (36 + buf.length * 2) ++
  writeString "WAVE" ++
  writeString "fmt " ++
  setUint32 16 ++
  setUint16 1 ++
  setUint16 1 ++
  setUint32 sr ++
  setUint32 (sr * 2) ++
  setUint16 2 ++
  setUint16 16 ++
  writeString "data" ++
  setUint32 (buf.length * 2) ++
  sampleData buf

/-- Little-endian unsigned 32-bit read at a byte offset (out-of-range bytes
read as 0), used to state the header-field claims. -/
def readU32 (b : List ℕ) (off : ℕ) : ℕ :=
  b.getD off 0 + 256 * b.getD (off + 1) 0 +
    65536 * b.getD (off + 2) 0 + 16777216 * b.getD (off + 3) 0

/-- Little-endian unsigned 16-bit read at a byte offset. -/
def readU16 (b : List ℕ) (off : ℕ) : ℕ :=
  b.getD off 0 + 256 * b.getD (off + 1) 0

/-- The `n` bytes starting at a given offset. -/
def bytesAt (b : List ℕ) (off n : ℕ) : List ℕ :=
  (b.drop off).take n

/-- Quantization as the spec sentence describes it (clamp, then round to
nearest): a second definition kept solely to compare against the one
embedded from the source. -/
def roundQuantize (q : ℚ) : ℤ :=
  let c := max (-1) (min 1 q)
  if c < 0 then round (c * 32768) else round (c * 32767)

section QuantizeLemmas

lemma clampSample_fin (q : ℚ) :
    clampSample (.fin q) = .fin (max (-1) (min 1 q)) := rfl

lemma wrap16_eq_self (n : ℤ) (h1 : -32768 ≤ n) (h2 : n ≤ 32767) :
    wrap16 n = n := by
  unfold wrap16
  omega

lemma truncQ_neg_bounds (x : ℚ) (h1 : -32768 ≤ x) (h2 : x < 0) :
    -32768 ≤ truncQ x ∧ truncQ x ≤ 0 := by
  rw [truncQ, if_neg (by linarith)]
  constructor
  · have : ((-32768 : ℤ) : ℚ) ≤ x := by push_cast; linarith
    calc (-32768 : ℤ) = ⌈((-32768 : ℤ) : ℚ)⌉ := by rw [Int.ceil_intCast]
    _ ≤ ⌈x⌉ := Int.ceil_le_ceil this
  · exact Int.ceil_le.mpr (by push_cast; linarith)

lemma truncQ_nonneg_bounds (x : ℚ) (h1 : 0 ≤ x) (h2 : x ≤ 32767) :
    0 ≤ truncQ x ∧ truncQ x ≤ 32767 := by
  rw [truncQ, if_pos h1]
  constructor
  · exact Int.floor_nonneg.mpr h1
  · calc ⌊x⌋ ≤ ⌊(32767 : ℚ)⌋ := Int.floor_le_floor h2
    _ = 32767 := by norm_num

/-- The quantizer of `createWavBlob`, on a finite sample, is exactly the
asymmetric clamp-then-truncate-toward-zero map: the 16-bit wrap-around in
`ToInt16` never fires. -/
lemma quantize_fin (q : ℚ) :
    quantize (.fin q) =
      if max (-1) (min 1 q) < 0 then truncQ (max (-1) (min 1 q) * 32768)
      else truncQ (max (-1) (min 1 q) * 32767) := by
  set c := max (-1) (min 1 q) with hc
  have hlo : (-1 : ℚ) ≤ c := le_max_left _ _
  have hhi : c ≤ 1 := max_le (by norm_num) (min_le_left _ _)
  rw [quantize]
  rw [show clampSample (.fin q) = .fin c from rfl]
  by_cases h : c < 0
  · rw [if_pos h, show ltZero (.fin c) = true by simp [ltZero, h]]
    simp only [if_pos, mulConst, toInt16]
    have hb := truncQ_neg_bounds (c * 32768)
      (by nlinarith) (by nlinarith)
    rw [wrap16_eq_self _ hb.1 (by linarith [hb.2])]
  · rw [if_neg h, show ltZero (.fin c) = false by simp [ltZero]; linarith [not_lt.mp h]]
    simp only [Bool.false_eq_true, if_false, mulConst, toInt16]
    have h0 : (0 : ℚ) ≤ c := not_lt.mp h
    have hb := truncQ_nonneg_bounds (c * 32767)
      (by positivity) (by nlinarith)
    rw [wrap16_eq_self _ (by linarith [hb.1]) hb.2]

lemma quantize_nan_eq : quantize .nan = 0 := rfl

lemma quantize_pinf_eq : quantize .pinf = 32767 := by
  norm_num [quantize, clampSample, jsMin, jsMax, ltZero, mulConst, toInt16, truncQ, wrap16]

lemma quantize_ninf_eq : quantize .ninf = -32768 := by
  norm_num [quantize, clampSample, jsMin, jsMax, ltZero, mulConst, toInt16, truncQ, wrap16,
    Int.ceil_neg]

lemma quantize_one_eq : quantize (.fin 1) = 32767 := by
  norm_num [quantize, clampSample, jsMin, jsMax, ltZero, mulConst, toInt16, truncQ, wrap16]

lemma quantize_negOne_eq : quantize (.fin (-1)) = -32768 := by
  norm_num [quantize, clampSample, jsMin, jsMax, ltZero, mulConst, toInt16, truncQ, wrap16,
    Int.ceil_neg]

lemma quantize_zero_eq : quantize (.fin 0) = 0 := by
  norm_num [quantize, clampSample, jsMin, jsMax, ltZero, mulConst, toInt16, truncQ, wrap16]

lemma quantize_threeHalves_eq : quantize (.fin (3 / 2)) = 32767 := by
  norm_num [quantize, clampSample, jsMin, jsMax, ltZero, mulConst, toInt16, truncQ, wrap16]

/-- Every quantized sample lies in the signed 16-bit range. -/
lemma quantize_range (v : FVal) :
    -32768 ≤ quantize v ∧ quantize v ≤ 32767 := by
  cases v with
  | nan => rw [quantize_nan_eq]; omega
  | pinf => rw [quantize_pinf_eq]; omega
  | ninf => rw [quantize_ninf_eq]; omega
  | fin q =>
    rw [quantize_fin]
    set c := max (-1) (min 1 q) with hc
    have hlo : (-1 : ℚ) ≤ c := le_max_left _ _
    have hhi : c ≤ 1 := max_le (by norm_num) (min_le_left _ _)
    by_cases h : c < 0
    · rw [if_pos h]
      have hb := truncQ_neg_bounds (c * 32768) (by nlinarith) (by nlinarith)
      omega
    · rw [if_neg h]
      have h0 : (0 : ℚ) ≤ c := not_lt.mp h
      have hb := truncQ_nonneg_bounds (c * 32767) (by positivity) (by nlinarith)
      omega

end QuantizeLemmas

section HeaderLemmas

lemma writeString_RIFF : writeString "RIFF" = [82, 73, 70, 70] := by decide

lemma writeString_WAVE : writeString "WAVE" = [87, 65, 86, 69] := by decide

lemma writeString_fmt : writeString "fmt " = [102, 109, 116, 32] := by decide

lemma writeString_data : writeString "data" = [100, 97, 116, 97] := by decide

/-- The value reconstructed from the four little-endian bytes of `n`. -/
def u32bytesVal (n : ℕ) : ℕ :=
  n % 256 + 256 * (n / 256 % 256) + 65536 * (n / 65536 % 256) +
    16777216 * (n / 16777216 % 256)

lemma u32bytesVal_eq (n : ℕ) (h : n < 2 ^ 32) : u32bytesVal n = n := by
  unfold u32bytesVal
  omega

/-- `createWavBlob` laid out byte by byte. -/
lemma createWavBlob_eq (buf : List FVal) (sr : ℕ) :
    createWavBlob buf sr =
      82 :: 73 :: 70 :: 70 ::
      (36 + buf.length * 2) % 256 :: (36 + buf.length * 2) / 256 % 256 ::
      (36 + buf.length * 2) / 65536 % 256 :: (36 + buf.length * 2) / 16777216 % 256 ::
      87 :: 65 :: 86 :: 69 ::
      102 :: 109 :: 116 :: 32 ::
      16 :: 0 :: 0 :: 0 ::
      1 :: 0 ::
      1 :: 0 ::
      sr % 256 :: sr / 256 % 256 :: sr / 65536 % 256 :: sr / 16777216 % 256 ::
      (sr * 2) % 256 :: (sr * 2) / 256 % 256 ::
      (sr * 2) / 65536 % 256 :: (sr * 2) / 16777216 % 256 ::
      2 :: 0 ::
      16 :: 0 ::
      100 :: 97 :: 116 :: 97 ::
      (buf.length * 2) % 256 :: (buf.length * 2) / 256 % 256 ::
      (buf.length * 2) / 65536 % 256 :: (buf.length * 2) / 16777216 % 256 ::
      sampleData buf := by
  rw [createWavBlob, writeString_RIFF, writeString_WAVE, writeString_fmt, writeString_data]
  rfl

lemma sampleData_cons (v : FVal) (t : List FVal) :
    sampleData (v :: t) = setInt16 (quantize v) ++ sampleData t := rfl

lemma sampleData_length (buf : List FVal) :
    (sampleData buf).length = buf.length * 2 := by
  induction buf with
  | nil => rfl
  | cons v t ih =>
    rw [sampleData_cons, List.length_append, ih]
    simp [setInt16]
    omega

end HeaderLemmas

/-- C2, counterexample: the encoder does not round to nearest.  At the input
sample 1/2 the clamped product is 16383.5; the code (ECMAScript `ToInt16`
truncation in `setInt16`) stores 16383, while the rounding policy the claim
states would store 16384. -/
theorem quantize_half_refutes_rounding :
    quantize (.fin (1 / 2)) = 16383 ∧ roundQuantize (1 / 2) = 16384 := by
  constructor
  · norm_num [quantize, clampSample, jsMin, jsMax, ltZero, mulConst, toInt16, truncQ, wrap16]
  · norm_num [roundQuantize, round_eq]

/-- C2 (amended): for every finite float sample `s`, `createWavBlob` first
clamps `s` to [-1, 1] and then emits, as the 16-bit value, the clamped
product `s_clamped * 32768` (when `s_clamped < 0`) or `s_clamped * 32767`
(otherwise) truncated toward zero — not rounded to nearest; the 16-bit
wrap-around never fires. -/
theorem quantize_clamp_then_asymmetric_truncate (q : ℚ) :
    quantize (.fin q) =
      if max (-1) (min 1 q) < 0 then truncQ (max (-1) (min 1 q) * 32768)
      else truncQ (max (-1) (min 1 q) * 32767) :=
  quantize_fin q

/-- C3: boundary samples encode exactly: 1.0 to 32767, -1.0 to -32768,
0.0 to 0, and the out-of-range 1.5 to the same value as 1.0. -/
theorem quantize_boundary_values :
    quantize (.fin 1) = 32767 ∧ quantize (.fin (-1)) = -32768 ∧
    quantize (.fin 0) = 0 ∧ quantize (.fin (3 / 2)) = quantize (.fin 1) := by
  refine ⟨quantize_one_eq, quantize_negOne_eq, quantize_zero_eq, ?_⟩
  rw [quantize_threeHalves_eq, quantize_one_eq]

/-- C10: quantization is total over NaN and the infinities and always lands
in the signed 16-bit range; NaN encodes to 0, +Infinity to 32767 and
-Infinity to -32768. -/
theorem quantize_total_on_nonfinite (v : FVal) :
    (-32768 ≤ quantize v ∧ quantize v ≤ 32767) ∧
    quantize .nan = 0 ∧ quantize .pinf = 32767 ∧ quantize .ninf = -32768 :=
  ⟨quantize_range v, quantize_nan_eq, quantize_pinf_eq, quantize_ninf_eq⟩

/-- C1: for every PCMBuffer of length L (and header values that fit a u32),
the encoded buffer has length 44 + 2L, its little-endian fields hold
ChunkSize = 36 + 2L, Subchunk2Size = 2L, SampleRate = sr, ByteRate = 2·sr,
NumChannels = 1, BlockAlign = 2, BitsPerSample = 16, and the ASCII literals
RIFF, WAVE, fmt␣, data sit at offsets 0, 8, 12, 36. -/
theorem wav_header_layout (buf : List FVal) (sr : ℕ)
    (hL : 36 + buf.length * 2 < 2 ^ 32) (hsr : sr * 2 < 2 ^ 32) :
    (createWavBlob buf sr).length = 44 + 2 * buf.length ∧
    readU32 (createWavBlob buf sr) 4 = 36 + 2 * buf.length ∧
    readU32 (createWavBlob buf sr) 40 = 2 * buf.length ∧
    readU32 (createWavBlob buf sr) 24 = sr ∧
    readU32 (createWavBlob buf sr) 28 = sr * 2 ∧
    readU16 (createWavBlob buf sr) 22 = 1 ∧
    readU16 (createWavBlob buf sr) 32 = 2 ∧
    readU16 (createWavBlob buf sr) 34 = 16 ∧
    bytesAt (createWavBlob buf sr) 0 4 = writeString "RIFF" ∧
    bytesAt (createWavBlob buf sr) 8 4 = writeString "WAVE" ∧
    bytesAt (createWavBlob buf sr) 12 4 = writeString "fmt " ∧
    bytesAt (createWavBlob buf sr) 36 4 = writeString "data" := by
  refine ⟨?_, ?_, ?_, ?_, ?_, ?_, ?_, ?_, ?_, ?_, ?_, ?_⟩
  · rw [createWavBlob_eq]
    simp [List.length_cons, sampleData_length]
    omega
  · have h : readU32 (createWavBlob buf sr) 4 = u32bytesVal (36 + buf.length * 2) := by
      rw [createWavBlob_eq]; rfl
    rw [h, u32bytesVal_eq _ hL]; omega
  · have h : readU32 (createWavBlob buf sr) 40 = u32bytesVal (buf.length * 2) := by
      rw [createWavBlob_eq]; rfl
    rw [h, u32bytesVal_eq _ (by omega)]; omega
  · have h : readU32 (createWavBlob buf sr) 24 = u32bytesVal sr := by
      rw [createWavBlob_eq]; rfl
    rw [h, u32bytesVal_eq _ (by omega)]
  · have h : readU32 (createWavBlob buf sr) 28 = u32bytesVal (sr * 2) := by
      rw [createWavBlob_eq]; rfl
    rw [h, u32bytesVal_eq _ hsr]
  · rw [createWavBlob_eq]; rfl
  · rw [createWavBlob_eq]; rfl
  · rw [createWavBlob_eq]; rfl
  · rw [createWavBlob_eq, writeString_RIFF]; rfl
  · rw [createWavBlob_eq, writeString_WAVE]; rfl
  · rw [createWavBlob_eq, writeString_fmt]; rfl
  · rw [createWavBlob_eq, writeString_data]; rfl

/-- A concrete two-sample buffer used to instantiate the hypotheses of the
header-layout theorem. -/
def demoBuf : List FVal := [.fin 1, .fin (-(1 / 2))]

/-- Witness for the header-layout theorem at a concrete input. -/
theorem wav_header_layout_witness :
    (36 + demoBuf.length * 2 < 2 ^ 32 ∧ 44100 * 2 < 2 ^ 32) ∧
    ((createWavBlob demoBuf 44100).length = 44 + 2 * demoBuf.length ∧
    readU32 (createWavBlob demoBuf 44100) 4 = 36 + 2 * demoBuf.length ∧
    readU32 (createWavBlob demoBuf 44100) 40 = 2 * demoBuf.length ∧
    readU32 (createWavBlob demoBuf 44100) 24 = 44100 ∧
    readU32 (createWavBlob demoBuf 44100) 28 = 44100 * 2 ∧
    readU16 (createWavBlob demoBuf 44100) 22 = 1 ∧
    readU16 (createWavBlob demoBuf 44100) 32 = 2 ∧
    readU16 (createWavBlob demoBuf 44100) 34 = 16 ∧
    bytesAt (createWavBlob demoBuf 44100) 0 4 = writeString "RIFF" ∧
    bytesAt (createWavBlob demoBuf 44100) 8 4 = writeString "WAVE" ∧
    bytesAt (createWavBlob demoBuf 44100) 12 4 = writeString "fmt " ∧
    bytesAt (createWavBlob demoBuf 44100) 36 4 = writeString "data") :=
  ⟨⟨by decide, by decide⟩,
    wav_header_layout demoBuf 44100 (by decide) (by decide)⟩

/-- C4: encoding the empty PCMBuffer is total and yields exactly 44 bytes,
with ChunkSize = 36 and Subchunk2Size = 0, for every sample rate. -/
theorem wav_empty_buffer (sr : ℕ) :
    (createWavBlob [] sr).length = 44 ∧
    readU32 (createWavBlob [] sr) 4 = 36 ∧
    readU32 (createWavBlob [] sr) 40 = 0 := by
  refine ⟨?_, ?_, ?_⟩ <;> rw [createWavBlob_eq] <;> rfl

/-! ### mergeBuffers -/

/-- `chunks.reduce((acc, c) => acc + c.length, 0)`: the allocation size
computed by `mergeBuffers`. -/
def totalLength (chunks : List (List FVal)) : ℕ :=
  chunks.foldl (fun acc c => acc + c.length) 0

/-- `Float32Array.prototype.set(src, off)` on the list model: overwrite the
entries of `dst` from `off` on with `src`.  The calls made by `mergeBuffers`
are always in bounds (the destination was allocated with the summed
length). -/
def typedSet (dst src : List FVal) (off : ℕ) : List FVal :=
  dst.take off ++ src ++ dst.drop (off + src.length)

/-- The copy loop of `mergeBuffers`: each chunk is written at the running
offset, which then advances by the length of that chunk. -/
def mergeLoop : List (List FVal) → List FVal → ℕ → List FVal
  | [], dst, _ => dst
  | c :: cs, dst, off => mergeLoop cs (typedSet dst c off) (off + c.length)

/-- `mergeBuffers(chunks)`: allocate a zero-filled `Float32Array` of the
total length (`new Float32Array(len)` zero-initializes) and copy each chunk
at its running offset. -/
def mergeBuffers (chunks : List (List FVal)) : List FVal :=
  mergeLoop chunks (List.replicate (totalLength chunks) (.fin 0)) 0

lemma totalLength_eq (chunks : List (List FVal)) :
    totalLength chunks = (chunks.map List.length).sum := by
  suffices h : ∀ n, chunks.foldl (fun acc c => acc + c.length) n =
      n + (chunks.map List.length).sum by
    simpa [totalLength] using h 0
  induction chunks with
  | nil => intro n; simp
  | cons c cs ih => intro n; simp [List.foldl_cons, ih]; omega

lemma mergeLoop_invariant (cs : List (List FVal)) (done : List FVal) :
    mergeLoop cs (done ++ List.replicate ((cs.map List.length).sum) (.fin 0)) done.length
      = done ++ cs.flatten := by
  induction cs generalizing done with
  | nil => simp [mergeLoop]
  | cons c cs ih =>
    rw [mergeLoop]
    have hset :
        typedSet
          (done ++ List.replicate (((c :: cs).map List.length).sum) (.fin 0)) c done.length
          = (done ++ c) ++ List.replicate ((cs.map List.length).sum) (.fin 0) := by
      unfold typedSet
      rw [List.map_cons, List.sum_cons, List.replicate_add, List.take_left]
      have hlen : (done ++ List.replicate c.length (FVal.fin 0)).length =
          done.length + c.length := by simp
      rw [← List.append_assoc done (List.replicate c.length (FVal.fin 0))
        (List.replicate ((cs.map List.length).sum) (FVal.fin 0)), ← hlen, List.drop_left]
    rw [hset, show done.length + c.length = (done ++ c).length by simp, ih]
    simp

/-- C5: `mergeBuffers` flattens the appended blocks in order into their
exact concatenation, whose length is the sum of the block lengths
(the empty block list gives the empty buffer). -/
theorem mergeBuffers_is_concatenation (chunks : List (List FVal)) :
    mergeBuffers chunks = chunks.flatten ∧
    (mergeBuffers chunks).length = (chunks.map List.length).sum := by
  have h : mergeBuffers chunks = chunks.flatten := by
    unfold mergeBuffers
    rw [totalLength_eq]
    simpa using mergeLoop_invariant chunks []
  exact ⟨h, by rw [h, List.length_flatten]⟩

/-- C6: `createWavBlob` is deterministic and pure.  Its source body reads
only its two parameters and local constants (no I/O, no global state), which
is what lets it embed as a plain function of exactly those arguments; hence
two invocations on equal inputs produce byte-for-byte identical buffers. -/
theorem createWavBlob_deterministic (b₁ b₂ : List FVal) (r₁ r₂ : ℕ)
    (hb : b₁ = b₂) (hr : r₁ = r₂) :
    createWavBlob b₁ r₁ = createWavBlob b₂ r₂ := by
  rw [hb, hr]

/-- Witness for determinism at a concrete input. -/
theorem createWavBlob_deterministic_witness :
    demoBuf = demoBuf ∧ (44100 : ℕ) = 44100 ∧
    createWavBlob demoBuf 44100 = createWavBlob demoBuf 44100 :=
  ⟨rfl, rfl, createWavBlob_deterministic demoBuf demoBuf 44100 44100 rfl rfl⟩

/-! ### Submission handlers: response processing -/

/-- The shape of a parsed JSON error body as the handlers use it: either it
carries a string `detail` field or it does not. -/
inductive JsonBody where
  | withDetail (detail : String) : JsonBody
  | noDetail : JsonBody
deriving DecidableEq

/-- An HTTP response as observed by the handlers: its `ok` flag, the text
`await response.text()` yields, and the value `await response.json()`
yields (`none` when the body is not valid JSON and the promise rejects). -/
structure HttpResponse where
  ok : Bool
  bodyText : String
  bodyJson : Option JsonBody
deriving DecidableEq

/-- Outcome of the response-processing part of a submission handler:
success, a failure alert carrying a message, or an alert caused by
`response.json()` itself rejecting (whose text is an engine-produced parse
error, not the response body). -/
inductive FetchOutcome where
  | success : FetchOutcome
  | failure (msg : String) : FetchOutcome
  | jsonParseFailure : FetchOutcome
deriving DecidableEq

/-- Embed handler of `part_000`:
`if (!response.ok) throw new Error(await response.text())`, caught and
surfaced via `alert`. -/
def embedOutcome (r : HttpResponse) : FetchOutcome :=
  if r.ok then .success else .failure r.bodyText

/-- Extract handler of `part_000`: same text-verbatim error path. -/
def extractOutcome (r : HttpResponse) : FetchOutcome :=
  if r.ok then .success else .failure r.bodyText

/-- Embed handler of `script.js`:
`const result = await response.json();`
`if (!response.ok) throw new Error(result.detail or the generic message)`.
The body is parsed as JSON unconditionally; on a non-ok status the `detail`
field (a falsy `detail`, such as a missing or empty one, falls back to the
generic message) — not the raw body — becomes the failure message. -/
def embedOutcomeScript (r : HttpResponse) : FetchOutcome :=
  match r.bodyJson with
  | none => .jsonParseFailure
  | some j =>
    if r.ok then .success
    else
      .failure
        (match j with
          | .withDetail d => if d = "" then "Embedding failed" else d
          | .noDetail => "Embedding failed")

/-- Extract handler of `script.js`, same JSON-first structure. -/
def extractOutcomeScript (r : HttpResponse) : FetchOutcome :=
  match r.bodyJson with
  | none => .jsonParseFailure
  | some j =>
    if r.ok then .success
    else
      .failure
        (match j with
          | .withDetail d => if d = "" then "Extraction failed" else d
          | .noDetail => "Extraction failed")

/-- A concrete non-ok response whose body is the JSON text
`\x7b"detail": "boom"\x7d`. -/
def errResp : HttpResponse :=
  { ok := false
    bodyText := "\x7b\"detail\": \"boom\"\x7d"
    bodyJson := some (.withDetail "boom") }

/-- C7, counterexample: the `script.js` embed handler does not carry the
error body verbatim — it parses the body as JSON and extracts the `detail`
field, so a non-ok response with body `\x7b"detail": "boom"\x7d` is
reported as `boom`, not as the full body text. -/
theorem script_embed_error_not_verbatim :
    embedOutcomeScript errResp = .failure "boom" ∧
    embedOutcomeScript errResp ≠ .failure errResp.bodyText := by
  constructor
  · rfl
  · decide

/-- C7 (amended): the revised handlers (`part_000`) read the full non-ok
response body as plain text and carry it verbatim in the failure result;
the older `script.js` handlers instead parse the body as JSON and report
its `detail` field, so for them the claim does not hold. -/
theorem fixed_handlers_error_text_verbatim (r : HttpResponse) (h : r.ok = false) :
    embedOutcome r = .failure r.bodyText ∧
    extractOutcome r = .failure r.bodyText := by
  simp [embedOutcome, extractOutcome, h]

/-- Witness: the verbatim-text theorem applied to the concrete response. -/
theorem fixed_handlers_error_text_verbatim_witness :
    errResp.ok = false ∧
    (embedOutcome errResp = .failure errResp.bodyText ∧
     extractOutcome errResp = .failure errResp.bodyText) :=
  ⟨rfl, fixed_handlers_error_text_verbatim errResp rfl⟩

/-! ### Stop handler -/

/-- `window.currentRecording`: the accumulated chunks and the sample rate
captured at start time (the stream handle carries no data we reason
about). -/
structure RecordingSession where
  chunks : List (List FVal)
  sampleRate : ℕ
deriving DecidableEq

/-- The globals the stop handler touches. -/
structure RecorderState where
  currentRecording : Option RecordingSession
  recordedBlob : Option (List ℕ)
deriving DecidableEq

/-- Observable side effects of one stop-handler run. -/
inductive StopEffect where
  | disconnectRecorder : StopEffect
  | disconnectSource : StopEffect
  | stopTracks : StopEffect
deriving DecidableEq

/-- The `stopRecordBtn` click handler: bail out immediately when
`window.currentRecording` is null; otherwise disconnect the graph, stop the
tracks, merge the chunks, encode, store the blob and clear the slot. -/
def stopClick (s : RecorderState) : RecorderState × List StopEffect :=
  match s.currentRecording with
  | none => (s, [])
  | some session =>
      ({ currentRecording := none
         recordedBlob :=
           some (createWavBlob (mergeBuffers session.chunks) session.sampleRate) },
        [.disconnectRecorder, .disconnectSource, .stopTracks])

/-- C8: a stop with no live capture session is a no-op — no disconnect, no
track release, state (including `recordedBlob`) untouched — and therefore a
second stop right after any stop does nothing. -/
theorem stop_without_session_noop (s : RecorderState)
    (h : s.currentRecording = none) :
    stopClick s = (s, []) ∧
    stopClick (stopClick s).1 = ((stopClick s).1, []) := by
  have h1 : stopClick s = (s, []) := by
    simp [stopClick, h]
  exact ⟨h1, by rw [h1]; simp [stopClick, h]⟩

/-- A concrete already-stopped state holding a previously produced blob. -/
def stoppedState : RecorderState :=
  { currentRecording := none
    recordedBlob := some (createWavBlob demoBuf 44100) }

/-- Witness for the stop no-op theorem at a concrete state. -/
theorem stop_without_session_noop_witness :
    stoppedState.currentRecording = none ∧
    (stopClick stoppedState = (stoppedState, []) ∧
     stopClick (stopClick stoppedState).1 = ((stopClick stoppedState).1, [])) :=
  ⟨rfl, stop_without_session_noop stoppedState rfl⟩

/-! ### Submission handlers: input validation -/

/-- A DOM `File`: a name plus raw bytes. -/
structure JsFile where
  name : String
  bytes : List ℕ
deriving DecidableEq

/-- The page state the embed click handler reads before submitting. -/
structure EmbedPageState where
  uploadHidden : Bool
  recordedBlob : Option (List ℕ)
  audioFiles : List JsFile
  imageFiles : List JsFile
  nFft : String
  hopLength : String
deriving DecidableEq

/-- The multipart embed request: `audio_file`, `image_file`, `n_fft`,
`hop_length`. -/
structure EmbedRequest where
  audio : JsFile
  image : JsFile
  nFft : String
  hopLength : String
deriving DecidableEq

/-- What one embed click does: either alert about a missing input and
return (no request), or send exactly one request. -/
inductive EmbedAction where
  | reject (msg : String) : EmbedAction
  | send (req : EmbedRequest) : EmbedAction
deriving DecidableEq

/-- The `embedBtn` click handler (validation part, `part_000` messages):
pick the audio source (recorded blob when the upload pane is hidden, first
selected file otherwise), bailing out when it is absent; then bail out when
no image is selected; only then build and send the form. -/
def embedClick (s : EmbedPageState) : EmbedAction :=
  if s.uploadHidden then
    match s.recordedBlob with
    | none => .reject "Record audio first!"
    | some blob =>
        match s.imageFiles with
        | [] => .reject "Choose image!"
        | img :: _ => .send ⟨⟨"recorded.wav", blob⟩, img, s.nFft, s.hopLength⟩
  else
    match s.audioFiles with
    | [] => .reject "Choose audio!"
    | f :: _ =>
        match s.imageFiles with
        | [] => .reject "Choose image!"
        | img :: _ => .send ⟨f, img, s.nFft, s.hopLength⟩

/-- What one extract click does. -/
inductive ExtractAction where
  | reject (msg : String) : ExtractAction
  | send (image : JsFile) : ExtractAction
deriving DecidableEq

/-- The `extractBtn` click handler (validation part): bail out when no
image is selected, otherwise send the single-field form. -/
def extractClick (files : List JsFile) : ExtractAction :=
  match files with
  | [] => .reject "Choose PNG!"
  | f :: _ => .send f

/-- Whether an embed action issues a network request. -/
def embedSends : EmbedAction → Bool
  | .send _ => true
  | .reject _ => false

/-- Whether an extract action issues a network request. -/
def extractSends : ExtractAction → Bool
  | .send _ => true
  | .reject _ => false

/-- C9: a submission with a required input absent is rejected before any
network request: no multipart request, complete or not, is sent, for the embed
handler (missing recording, missing audio file, or missing image) and for
the extract handler (missing image). -/
theorem missing_input_no_request (s : EmbedPageState) (files : List JsFile)
    (hEmbed : (s.uploadHidden = true ∧ s.recordedBlob = none) ∨
      (s.uploadHidden = false ∧ s.audioFiles = []) ∨ s.imageFiles = [])
    (hExtract : files = []) :
    embedSends (embedClick s) = false ∧
    extractSends (extractClick files) = false := by
  subst hExtract
  refine ⟨?_, rfl⟩
  rcases hEmbed with ⟨hu, hr⟩ | ⟨hu, ha⟩ | hi
  · simp [embedClick, hu, hr, embedSends]
  · simp [embedClick, hu, ha, embedSends]
  · rcases hb : s.uploadHidden with _ | _ <;>
      rcases hrb : s.recordedBlob with _ | blob <;>
      rcases haf : s.audioFiles with _ | ⟨f, fs⟩ <;>
        simp [embedClick, hb, hrb, haf, hi, embedSends]

/-- A concrete page state with the upload pane hidden and nothing recorded
or selected. -/
def emptyEmbedState : EmbedPageState :=
  { uploadHidden := true
    recordedBlob := none
    audioFiles := []
    imageFiles := []
    nFft := "2048"
    hopLength := "512" }

/-- Witness for the missing-input theorem at a concrete page state. -/
theorem missing_input_no_request_witness :
    ((emptyEmbedState.uploadHidden = true ∧ emptyEmbedState.recordedBlob = none) ∨
      (emptyEmbedState.uploadHidden = false ∧ emptyEmbedState.audioFiles = []) ∨
      emptyEmbedState.imageFiles = []) ∧
    (embedSends (embedClick emptyEmbedState) = false ∧
     extractSends (extractClick []) = false) :=
  ⟨Or.inl ⟨rfl, rfl⟩,
    missing_input_no_request emptyEmbedState [] (Or.inl ⟨rfl, rfl⟩) rfl⟩

end Midio
